import Mathlib

/-!
Verification of the relay/forwarding service.

This file embeds, in Lean, the behaviour of the repository's relay code:

* `app/controllers/relay_controller.py` (generic path relay),
* `app/controllers/agency_relay_controller.py` and
  `app/controllers/mall_relay_controller.py` (typed endpoint relays),
* `app/controllers/dependencies.py` (credential-header dependencies),
* `app/today_pickup_client/client.py` (transport client),
* `app/services/user_service.py` and `app/repositories/user_repository.py`
  (CRUD user service),

and proves (or refutes) the specification's claims about it.  Headers are
modelled as association lists of name/value pairs; a Python `dict` built by
repeated insertion is modelled by `dictInsert`/`dictUpd`, which keep the
first-insertion position of a key and let a later insertion of the same key
overwrite its value, exactly like CPython dictionaries.
-/

/-- JSON values, the data interchanged with the upstream API.  Numbers are
modelled as integers, which covers every payload appearing in the claims. -/
inductive Json where
  | null : Json
  | bool (b : Bool) : Json
  | num (n : Int) : Json
  | str (s : String) : Json
  | arr (items : List Json) : Json
  | obj (fields : List (String × Json)) : Json

/-- One step of Python dict assignment `d[k] = v`: if the key is present its
value is overwritten in place, otherwise the pair is appended. -/
def dictInsert (d : List (String × String)) (k v : String) : List (String × String) :=
  if d.any (fun p => p.1 == k) then d.map (fun p => if p.1 == k then (k, v) else p)
  else d ++ [(k, v)]

/-- Python `d.update(hs)` / a loop of assignments: fold `dictInsert` over `hs`. -/
def dictUpd (d : List (String × String)) (hs : List (String × String)) :
    List (String × String) :=
  hs.foldl (fun acc p => dictInsert acc p.1 p.2) d

/-- Building a Python dict from scratch out of a list of pairs. -/
def dictOfList (hs : List (String × String)) : List (String × String) :=
  dictUpd [] hs

theorem mem_dictInsert {d : List (String × String)} {k v n w : String}
    (h : (n, w) ∈ dictInsert d k v) : (n, w) ∈ d ∨ (n = k ∧ w = v) := by
  unfold dictInsert at h
  by_cases hc : d.any (fun p => p.1 == k) = true
  · rw [if_pos hc] at h
    obtain ⟨p, hp, hpe⟩ := List.mem_map.mp h
    by_cases hk : (p.1 == k) = true
    · rw [if_pos hk] at hpe
      exact Or.inr ⟨(Prod.mk.injEq _ _ _ _ ▸ hpe.symm).1, (Prod.mk.injEq _ _ _ _ ▸ hpe.symm).2⟩
    · rw [if_neg hk] at hpe
      exact Or.inl (hpe ▸ hp)
  · rw [if_neg hc] at h
    rcases List.mem_append.mp h with h' | h'
    · exact Or.inl h'
    · have : (n, w) = (k, v) := List.mem_singleton.mp h'
      exact Or.inr ⟨congrArg Prod.fst this, congrArg Prod.snd this⟩

theorem self_mem_dictInsert (d : List (String × String)) (k v : String) :
    (k, v) ∈ dictInsert d k v := by
  unfold dictInsert
  by_cases hc : d.any (fun p => p.1 == k) = true
  · rw [if_pos hc]
    obtain ⟨p, hp, hpk⟩ := List.any_eq_true.mp hc
    exact List.mem_map.mpr ⟨p, hp, by rw [if_pos hpk]⟩
  · rw [if_neg hc]
    exact List.mem_append.mpr (Or.inr (List.mem_singleton.mpr rfl))

theorem key_mem_dictInsert (d : List (String × String)) (k v : String) :
    k ∈ (dictInsert d k v).map Prod.fst :=
  List.mem_map.mpr ⟨(k, v), self_mem_dictInsert d k v, rfl⟩

theorem keys_dictInsert_mono {d : List (String × String)} {a : String} (k v : String)
    (h : a ∈ d.map Prod.fst) : a ∈ (dictInsert d k v).map Prod.fst := by
  unfold dictInsert
  by_cases hc : d.any (fun p => p.1 == k) = true
  · rw [if_pos hc]
    obtain ⟨p, hp, hpa⟩ := List.mem_map.mp h
    refine List.mem_map.mpr ⟨if p.1 == k then (k, v) else p, List.mem_map.mpr ⟨p, hp, rfl⟩, ?_⟩
    by_cases hk : (p.1 == k) = true
    · rw [if_pos hk]
      exact (eq_of_beq hk ▸ hpa : k = a) ▸ rfl
    · rw [if_neg hk]
      exact hpa
  · rw [if_neg hc, List.map_append, List.mem_append]
    exact Or.inl h

theorem mem_dictInsert_of_ne {d : List (String × String)} {n w : String} (k v : String)
    (h : (n, w) ∈ d) (hne : n ≠ k) : (n, w) ∈ dictInsert d k v := by
  unfold dictInsert
  by_cases hc : d.any (fun p => p.1 == k) = true
  · rw [if_pos hc]
    refine List.mem_map.mpr ⟨(n, w), h, ?_⟩
    have hk : (((n, w) : String × String).1 == k) = false := beq_eq_false_iff_ne.mpr hne
    rw [if_neg (by simp [hk])]
  · rw [if_neg hc]
    exact List.mem_append.mpr (Or.inl h)

theorem mem_dictUpd {d hs : List (String × String)} {n w : String}
    (h : (n, w) ∈ dictUpd d hs) : (n, w) ∈ d ∨ (n, w) ∈ hs := by
  induction hs generalizing d with
  | nil => exact Or.inl h
  | cons p t ih =>
    unfold dictUpd at h
    rw [List.foldl_cons] at h
    rcases ih h with h' | h'
    · rcases mem_dictInsert h' with h'' | h''
      · exact Or.inl h''
      · refine Or.inr (List.mem_cons.mpr (Or.inl ?_))
        rw [h''.1, h''.2]
    · exact Or.inr (List.mem_cons_of_mem _ h')

theorem keys_dictUpd_mono_acc {hs : List (String × String)} {a : String}
    (d : List (String × String))
    (h : a ∈ d.map Prod.fst) : a ∈ (dictUpd d hs).map Prod.fst := by
  induction hs generalizing d with
  | nil => exact h
  | cons p t ih =>
    unfold dictUpd
    rw [List.foldl_cons]
    exact ih _ (keys_dictInsert_mono p.1 p.2 h)

theorem keys_dictUpd_mono_list {hs : List (String × String)} {a : String}
    (d : List (String × String))
    (h : a ∈ hs.map Prod.fst) : a ∈ (dictUpd d hs).map Prod.fst := by
  induction hs generalizing d with
  | nil => simp at h
  | cons p t ih =>
    rw [List.map_cons] at h
    unfold dictUpd
    rw [List.foldl_cons]
    rcases List.mem_cons.mp h with h' | h'
    · exact keys_dictUpd_mono_acc _ (h' ▸ key_mem_dictInsert d p.1 p.2)
    · exact ih _ h'

theorem mem_dictUpd_of_ne {hs : List (String × String)} {n w : String}
    (d : List (String × String))
    (h : (n, w) ∈ d) (hne : ∀ p ∈ hs, p.1 ≠ n) : (n, w) ∈ dictUpd d hs := by
  induction hs generalizing d with
  | nil => exact h
  | cons p t ih =>
    unfold dictUpd
    rw [List.foldl_cons]
    refine ih _ (mem_dictInsert_of_ne p.1 p.2 h ?_)
      (fun q hq => hne q (List.mem_cons_of_mem _ hq))
    exact fun hk => (hne p (List.mem_cons_self _ _)) (hk ▸ rfl)

theorem dictUpd_eq_append {hs : List (String × String)} (d : List (String × String))
    (h : (d.map Prod.fst ++ hs.map Prod.fst).Nodup) : dictUpd d hs = d ++ hs := by
  induction hs generalizing d with
  | nil => simp [dictUpd]
  | cons p t ih =>
    rw [List.map_cons] at h
    have hknotin : p.1 ∉ d.map Prod.fst := by
      intro hmem
      rcases List.nodup_append.mp h with ⟨_, _, hdisj⟩
      exact hdisj hmem (List.mem_cons_self _ _)
    have hany : d.any (fun q => q.1 == p.1) = false := by
      rw [List.any_eq_false]
      intro q hq hbq
      exact hknotin (List.mem_map.mpr ⟨q, hq, eq_of_beq hbq⟩)
    unfold dictUpd
    rw [List.foldl_cons]
    have hins : dictInsert d p.1 p.2 = d ++ [p] := by
      unfold dictInsert
      rw [if_neg (by rw [hany]; exact Bool.false_ne_true)]
    rw [hins]
    have hshape : ((d ++ [p]).map Prod.fst ++ t.map Prod.fst).Nodup := by
      rw [List.map_append, List.append_assoc]
      simpa using h
    have hrec := ih (d := d ++ [p]) hshape
    rw [dictUpd] at hrec
    rw [hrec, List.append_assoc]
    rfl

/-! ## Generic path relay (`app/controllers/relay_controller.py`) -/

/-- ASCII lowercasing of one character, as Python's `str.lower()` does for
the ASCII header names appearing here. -/
def charLower (c : Char) : Char :=
  if 65 ≤ c.toNat ∧ c.toNat ≤ 90 then Char.ofNat (c.toNat + 32) else c

/-- Python's `name.lower()` on header names (ASCII lowercasing). -/
def strLower (s : String) : String :=
  ⟨s.data.map charLower⟩

/-- `BASE_URL` of `relay_controller.py`: the fixed upstream base. -/
def BASE_URL : String := "https://admin.todaypickup.com/v2/api-docs/"

/-- `HOP_BY_HOP_HEADERS` of `relay_controller.py`: header names excluded from
forwarding (matched against the lowercased inbound name). -/
def HOP_BY_HOP_HEADERS : List String :=
  ["connection", "keep-alive", "proxy-authenticate", "proxy-authorization",
   "te", "trailers", "transfer-encoding", "upgrade", "host"]

/-- An incoming request as seen by `relay_request`: method, remaining path,
raw query string, the header listing produced by Starlette
(`request.headers.items()`, which yields every raw entry, duplicates
included), and the raw body bytes. -/
structure IncomingRequest where
  method : String
  path : String
  query : String
  headers : List (String × String)
  body : List Nat

/-- The single outbound httpx call issued by the generic relay. -/
structure OutboundRequest where
  method : String
  url : String
  headers : List (String × String)
  body : Option (List Nat)

/-- The `forward_headers` loop of `relay_request`: iterate over the inbound
header items, skip names whose lowercasing is in `HOP_BY_HOP_HEADERS`, and
assign the rest into a dict. -/
def buildForwardHeaders (hs : List (String × String)) : List (String × String) :=
  hs.foldl
    (fun d p => if HOP_BY_HOP_HEADERS.contains (strLower p.1) then d else dictInsert d p.1 p.2)
    []

/-- The target URL of `relay_request`: `BASE_URL + path`, then `?` plus the
query string when the query string is non-empty (Python truthiness). -/
def buildTargetUrl (path query : String) : String :=
  BASE_URL ++ path ++ (if query = "" then "" else "?" ++ query)

/-- The outbound request `relay_request` constructs: same method, built URL,
filtered headers, and the body bytes when non-empty (`content=body if body
else None`). -/
def buildOutbound (req : IncomingRequest) : OutboundRequest :=
  { method := req.method
    url := buildTargetUrl req.path req.query
    headers := buildForwardHeaders req.headers
    body := if req.body = [] then none else some req.body }

/-- Outcome of the single `client.request` call inside `relay_request`:
either an upstream response (status, header items as presented by httpx's
`items()` view, body bytes) or one of the exception classes the handler
catches, each carrying the exception's message text. -/
inductive UpstreamResult where
  | success (status : Nat) (headers : List (String × String)) (body : List Nat)
  | timeoutError (msg : String)
  | requestError (msg : String)
  | unexpectedError (msg : String)

/-- What the caller of the generic relay receives: a forwarded response or an
`HTTPException` with a status code and a detail string. -/
inductive RelayResult where
  | ok (status : Nat) (headers : List (String × String)) (body : List Nat)
  | httpError (status : Nat) (detail : String)

/-- `relay_request` of `relay_controller.py`.  The upstream is abstracted as a
function from the outbound request to an outcome; the returned list records
every outbound call issued (the source issues exactly one, with no retry).
On success the response headers are copied entry by entry into a dict
(`response_headers`) with no filtering; on failure the exception is mapped to
504 / 502 / 500 with the source's detail strings. -/
def relay_request (req : IncomingRequest) (upstream : OutboundRequest → UpstreamResult) :
    RelayResult × List OutboundRequest :=
  let out := buildOutbound req
  ((match upstream out with
    | .success s h b => .ok s (dictOfList h) b
    | .timeoutError m => .httpError 504 ("Gateway timeout: " ++ m)
    | .requestError m =>
        .httpError 502 ("Bad gateway: Error connecting to the upstream server. " ++ m)
    | .unexpectedError m => .httpError 500 ("Internal server error: " ++ m)),
   [out])

/-- A substring occurrence, for "detail contains ..." properties. -/
def containsStr (s sub : String) : Prop := ∃ pre post, s = pre ++ sub ++ post

theorem buildForwardHeaders_eq_filter (hs : List (String × String)) :
    buildForwardHeaders hs
      = dictOfList (hs.filter (fun p => ¬ HOP_BY_HOP_HEADERS.contains (strLower p.1))) := by
  rw [buildForwardHeaders, dictOfList, dictUpd]
  generalize ([] : List (String × String)) = d
  induction hs generalizing d with
  | nil => rfl
  | cons p t ih =>
    rw [List.foldl_cons]
    by_cases hp : HOP_BY_HOP_HEADERS.contains (strLower p.1) = true
    · rw [if_pos hp, List.filter_cons_of_neg (by simpa using hp), ih]
    · rw [if_neg hp, List.filter_cons_of_pos (by simpa using hp), List.foldl_cons, ih]

theorem string_append_assoc (a b c : String) : a ++ b ++ c = a ++ (b ++ c) := by
  apply String.ext
  simp [List.append_assoc]

/-- C2 (amended): the generic relay's outbound header dict contains only
inbound entries whose lowercased name avoids the exclusion list, with names
and values unchanged; an inbound header whose lowercased name is excluded is
never present in the outbound dict under any value; every non-excluded
inbound name appears in the outbound dict; and when the inbound names are
pairwise distinct every non-excluded inbound header is copied verbatim (the
outbound dict is exactly the filtered inbound listing).  When the inbound
listing repeats a name, the dict keeps a single entry for it, so the earlier
value is not forwarded (see the counterexample). -/
theorem relay_forward_headers_policy (req : IncomingRequest) :
    (∀ n v, (n, v) ∈ (buildOutbound req).headers →
        (n, v) ∈ req.headers ∧ HOP_BY_HOP_HEADERS.contains (strLower n) = false) ∧
    (∀ n v, (n, v) ∈ req.headers → HOP_BY_HOP_HEADERS.contains (strLower n) = true →
        ∀ w, (n, w) ∉ (buildOutbound req).headers) ∧
    (∀ n v, (n, v) ∈ req.headers → HOP_BY_HOP_HEADERS.contains (strLower n) = false →
        n ∈ (buildOutbound req).headers.map Prod.fst) ∧
    ((req.headers.map Prod.fst).Nodup →
        (buildOutbound req).headers
          = req.headers.filter (fun p => ¬ HOP_BY_HOP_HEADERS.contains (strLower p.1))) := by
  have hbo : (buildOutbound req).headers
      = dictOfList (req.headers.filter (fun p => ¬ HOP_BY_HOP_HEADERS.contains (strLower p.1))) :=
    buildForwardHeaders_eq_filter req.headers
  have hsub : ∀ n v, (n, v) ∈ (buildOutbound req).headers →
      (n, v) ∈ req.headers ∧ HOP_BY_HOP_HEADERS.contains (strLower n) = false := by
    intro n v hmem
    rw [hbo] at hmem
    rcases mem_dictUpd hmem with h | h
    · exact absurd h (List.not_mem_nil _)
    · obtain ⟨hm, hp⟩ := List.mem_filter.mp h
      refine ⟨hm, ?_⟩
      simpa using of_decide_eq_true hp
  refine ⟨hsub, ?_, ?_, ?_⟩
  · intro n v _ hex w hmem
    have := (hsub n w hmem).2
    rw [this] at hex
    exact Bool.false_ne_true hex
  · intro n v hmem hex
    rw [hbo]
    refine keys_dictUpd_mono_list _ (List.mem_map.mpr ⟨(n, v), ?_, rfl⟩)
    refine List.mem_filter.mpr ⟨hmem, ?_⟩
    simpa using hex
  · intro hnd
    rw [hbo, dictOfList, dictUpd_eq_append _ (by simpa using
      (hnd.sublist (List.Sublist.map Prod.fst (List.filter_sublist _))))]
    exact List.nil_append _

/-- C2 counterexample: with two inbound headers of the same (non-excluded)
name, the earlier one is not copied to the outbound request, refuting the
claim that every non-excluded inbound header is forwarded with its name and
value unchanged. -/
theorem relay_forward_headers_duplicate_cx :
    ("x-a", "1") ∈ [("x-a", "1"), ("x-a", "2")] ∧
    HOP_BY_HOP_HEADERS.contains (strLower "x-a") = false ∧
    ("x-a", "1") ∉ buildForwardHeaders [("x-a", "1"), ("x-a", "2")] := by
  refine ⟨List.mem_cons_self _ _, by decide, ?_⟩
  intro hmem
  have : buildForwardHeaders [("x-a", "1"), ("x-a", "2")] = [("x-a", "2")] := by decide
  rw [this] at hmem
  simp at hmem

/-- C3: when the single outbound call succeeds, the generic relay returns the
upstream's exact status code, exact body bytes, and the upstream header
items copied one by one into the response-header dict with no filtering;
every returned header entry is an upstream entry, every upstream header name
is present, and since httpx's `items()` view lists each header name once
(`Nodup` names), the returned header set is exactly the upstream one. -/
theorem relay_success_round_trip (req : IncomingRequest)
    (upstream : OutboundRequest → UpstreamResult) (s : Nat)
    (h : List (String × String)) (b : List Nat)
    (hub : upstream (buildOutbound req) = .success s h b) :
    (relay_request req upstream).1 = .ok s (dictOfList h) b ∧
    (∀ p, p ∈ dictOfList h → p ∈ h) ∧
    (∀ a, a ∈ h.map Prod.fst → a ∈ (dictOfList h).map Prod.fst) ∧
    ((h.map Prod.fst).Nodup → dictOfList h = h) := by
  refine ⟨?_, ?_, ?_, ?_⟩
  · rw [relay_request]
    rw [hub]
  · intro p hp
    obtain ⟨n, w⟩ := p
    rcases mem_dictUpd hp with h' | h'
    · exact absurd h' (List.not_mem_nil _)
    · exact h'
  · intro a ha
    exact keys_dictUpd_mono_list _ ha
  · intro hnd
    rw [dictOfList, dictUpd_eq_append _ (by simpa using hnd)]
    exact List.nil_append _

/-- Witness for the round-trip theorem at a concrete request and upstream
response. -/
theorem relay_success_round_trip_witness :
    (relay_request ⟨"GET", "p", "", [], []⟩
        (fun _ => .success 200 [("a", "b")] [1])).1
      = .ok 200 (dictOfList [("a", "b")]) [1] ∧
    dictOfList [("a", "b")] = [("a", "b")] :=
  ⟨(relay_success_round_trip ⟨"GET", "p", "", [], []⟩
      (fun _ => .success 200 [("a", "b")] [1]) 200 [("a", "b")] [1] rfl).1,
   (relay_success_round_trip ⟨"GET", "p", "", [], []⟩
      (fun _ => .success 200 [("a", "b")] [1]) 200 [("a", "b")] [1] rfl).2.2.2
      (by decide)⟩

/-- C4: the generic relay maps an outbound timeout to a local 504 whose
detail contains "Gateway timeout", any other transport failure to a local
502 whose detail contains "Bad gateway", and any other unexpected failure to
a local 500 whose detail contains "Internal server error"; in every case
exactly one outbound call is issued, so no retry is ever attempted. -/
theorem relay_failure_mapping (req : IncomingRequest)
    (upstream : OutboundRequest → UpstreamResult) :
    (∀ m, upstream (buildOutbound req) = .timeoutError m →
        (relay_request req upstream).1 = .httpError 504 ("Gateway timeout: " ++ m) ∧
        containsStr ("Gateway timeout: " ++ m) "Gateway timeout") ∧
    (∀ m, upstream (buildOutbound req) = .requestError m →
        (relay_request req upstream).1
          = .httpError 502 ("Bad gateway: Error connecting to the upstream server. " ++ m) ∧
        containsStr ("Bad gateway: Error connecting to the upstream server. " ++ m)
          "Bad gateway") ∧
    (∀ m, upstream (buildOutbound req) = .unexpectedError m →
        (relay_request req upstream).1 = .httpError 500 ("Internal server error: " ++ m) ∧
        containsStr ("Internal server error: " ++ m) "Internal server error") ∧
    (relay_request req upstream).2 = [buildOutbound req] := by
  refine ⟨?_, ?_, ?_, ?_⟩
  · intro m hm
    refine ⟨by rw [relay_request]; rw [hm], "", ": " ++ m, ?_⟩
    rw [string_append_assoc]
    rfl
  · intro m hm
    refine ⟨by rw [relay_request]; rw [hm], "", ": Error connecting to the upstream server. " ++ m, ?_⟩
    rw [string_append_assoc]
    rfl
  · intro m hm
    refine ⟨by rw [relay_request]; rw [hm], "", ": " ++ m, ?_⟩
    rw [string_append_assoc]
    rfl
  · rw [relay_request]

/-- Witness for the failure mapping at concrete requests, one per failure
class. -/
theorem relay_failure_mapping_witness :
    (relay_request ⟨"GET", "p", "", [], []⟩ (fun _ => .timeoutError "t")).1
      = .httpError 504 ("Gateway timeout: " ++ "t") ∧
    (relay_request ⟨"GET", "p", "", [], []⟩ (fun _ => .requestError "r")).1
      = .httpError 502 ("Bad gateway: Error connecting to the upstream server. " ++ "r") ∧
    (relay_request ⟨"GET", "p", "", [], []⟩ (fun _ => .unexpectedError "u")).1
      = .httpError 500 ("Internal server error: " ++ "u") ∧
    (relay_request ⟨"GET", "p", "", [], []⟩ (fun _ => .timeoutError "t")).2.length = 1 :=
  ⟨((relay_failure_mapping ⟨"GET", "p", "", [], []⟩ (fun _ => .timeoutError "t")).1
      "t" rfl).1,
   ((relay_failure_mapping ⟨"GET", "p", "", [], []⟩ (fun _ => .requestError "r")).2.1
      "r" rfl).1,
   ((relay_failure_mapping ⟨"GET", "p", "", [], []⟩ (fun _ => .unexpectedError "u")).2.2.1
      "u" rfl).1,
   by rw [(relay_failure_mapping ⟨"GET", "p", "", [], []⟩ (fun _ => .timeoutError "t")).2.2.2]
      rfl⟩

/-- C8: the generic relay issues exactly one outbound call, whose method is
the incoming method, whose URL is the upstream base plus the remaining path,
with "?" plus the original query string appended exactly when the query
string is non-empty, and whose body is the incoming raw bytes exactly when
they are non-empty (an empty incoming body sends no outbound body). -/
theorem relay_outbound_shape (req : IncomingRequest)
    (upstream : OutboundRequest → UpstreamResult) :
    (relay_request req upstream).2 = [buildOutbound req] ∧
    (buildOutbound req).method = req.method ∧
    (req.query = "" → (buildOutbound req).url = BASE_URL ++ req.path) ∧
    (req.query ≠ "" →
        (buildOutbound req).url = BASE_URL ++ req.path ++ ("?" ++ req.query)) ∧
    ((buildOutbound req).body = none ↔ req.body = []) ∧
    (req.body ≠ [] → (buildOutbound req).body = some req.body) := by
  refine ⟨by rw [relay_request], rfl, ?_, ?_, ?_, ?_⟩
  · intro hq
    show buildTargetUrl req.path req.query = _
    rw [buildTargetUrl, if_pos hq]
    apply String.ext
    simp
  · intro hq
    show buildTargetUrl req.path req.query = _
    rw [buildTargetUrl, if_neg hq]
  · constructor
    · intro hb
      by_contra hne
      have : (buildOutbound req).body = some req.body := by
        show (if req.body = [] then none else some req.body) = _
        rw [if_neg hne]
      rw [this] at hb
      exact Option.noConfusion hb
    · intro hb
      show (if req.body = [] then none else some req.body) = none
      rw [if_pos hb]
  · intro hb
    show (if req.body = [] then none else some req.body) = some req.body
    rw [if_neg hb]

/-- Witness for the outbound-shape theorem at a concrete request with a
non-empty query string and a non-empty body. -/
theorem relay_outbound_shape_witness :
    (relay_request ⟨"POST", "a/b", "x=1", [], [7]⟩
        (fun _ => .success 200 [] [])).2
      = [buildOutbound ⟨"POST", "a/b", "x=1", [], [7]⟩] ∧
    (buildOutbound ⟨"POST", "a/b", "x=1", [], [7]⟩).url
      = BASE_URL ++ "a/b" ++ ("?" ++ "x=1") ∧
    (buildOutbound ⟨"POST", "a/b", "x=1", [], [7]⟩).body = some [7] :=
  ⟨(relay_outbound_shape ⟨"POST", "a/b", "x=1", [], [7]⟩ (fun _ => .success 200 [] [])).1,
   (relay_outbound_shape ⟨"POST", "a/b", "x=1", [], [7]⟩
      (fun _ => .success 200 [] [])).2.2.2.1 (by decide),
   (relay_outbound_shape ⟨"POST", "a/b", "x=1", [], [7]⟩
      (fun _ => .success 200 [] [])).2.2.2.2.2 (by decide)⟩

/-! ## JSON parsing (model of Python's `json` decoding used by
`response.json()` in `app/today_pickup_client/client.py`).  Strings, integer
numbers, arrays, objects, literals and whitespace are modelled; an input the
parser cannot consume entirely yields `none`, modelling a raised
`JSONDecodeError`. -/

/-- Translation of a single escaped character inside a JSON string. -/
def unescapeChar (c : Char) : Char :=
  if c = 'n' then '\n' else if c = 't' then '\t' else if c = 'r' then '\r' else c

/-- Consumes the body of a JSON string after its opening quote, up to and
including the closing quote. -/
def parseStringBody : List Char → Option (String × List Char)
  | [] => none
  | '"' :: cs => some ("", cs)
  | '\\' :: [] => none
  | '\\' :: e :: cs =>
    match parseStringBody cs with
    | some (s, r) => some (⟨unescapeChar e :: s.data⟩, r)
    | none => none
  | c :: cs =>
    match parseStringBody cs with
    | some (s, r) => some (⟨c :: s.data⟩, r)
    | none => none

/-- Skips JSON whitespace. -/
def skipWs : List Char → List Char
  | c :: cs => if c = ' ' ∨ c = '\n' ∨ c = '\t' ∨ c = '\r' then skipWs cs else c :: cs
  | [] => []

/-- Numeric value of a digit run. -/
def natOfDigits (ds : List Char) : Nat :=
  ds.foldl (fun n c => n * 10 + (c.toNat - 48)) 0

mutual

/-- Parses one JSON value (fuel-indexed recursion). -/
def parseVal : Nat → List Char → Option (Json × List Char)
  | 0, _ => none
  | fuel + 1, cs =>
    match skipWs cs with
    | 'n' :: 'u' :: 'l' :: 'l' :: r => some (.null, r)
    | 't' :: 'r' :: 'u' :: 'e' :: r => some (.bool true, r)
    | 'f' :: 'a' :: 'l' :: 's' :: 'e' :: r => some (.bool false, r)
    | '"' :: r =>
      match parseStringBody r with
      | some (s, r') => some (.str s, r')
      | none => none
    | '[' :: r =>
      match skipWs r with
      | ']' :: r' => some (.arr [], r')
      | r' =>
        match parseItems fuel r' with
        | some (items, r'') => some (.arr items, r'')
        | none => none
    | '\x7b' :: r =>
      match skipWs r with
      | '\x7d' :: r' => some (.obj [], r')
      | r' =>
        match parseFields fuel r' with
        | some (fs, r'') => some (.obj fs, r'')
        | none => none
    | '-' :: r =>
      match r.takeWhile Char.isDigit, r.dropWhile Char.isDigit with
      | [], _ => none
      | ds, r' => some (.num (-(Int.ofNat (natOfDigits ds))), r')
    | r =>
      match r.takeWhile Char.isDigit, r.dropWhile Char.isDigit with
      | [], _ => none
      | ds, r' => some (.num (Int.ofNat (natOfDigits ds)), r')

/-- Parses the items of a non-empty JSON array up to the closing bracket. -/
def parseItems : Nat → List Char → Option (List Json × List Char)
  | 0, _ => none
  | fuel + 1, cs =>
    match parseVal fuel cs with
    | none => none
    | some (v, r) =>
      match skipWs r with
      | ',' :: r' =>
        match parseItems fuel r' with
        | some (vs, r'') => some (v :: vs, r'')
        | none => none
      | ']' :: r' => some ([v], r')
      | _ => none

/-- Parses the fields of a non-empty JSON object up to the closing brace. -/
def parseFields : Nat → List Char → Option (List (String × Json) × List Char)
  | 0, _ => none
  | fuel + 1, cs =>
    match skipWs cs with
    | '"' :: r =>
      match parseStringBody r with
      | none => none
      | some (k, r') =>
        match skipWs r' with
        | ':' :: r'' =>
          match parseVal fuel r'' with
          | none => none
          | some (v, r3) =>
            match skipWs r3 with
            | ',' :: r4 =>
              match parseFields fuel r4 with
              | some (fs, r5) => some ((k, v) :: fs, r5)
              | none => none
            | '\x7d' :: r4 => some ([(k, v)], r4)
            | _ => none
        | _ => none
    | _ => none

end

/-- Decoding a whole JSON document, requiring all input to be consumed. -/
def Json.parse (s : String) : Option Json :=
  match parseVal (2 * s.length + 4) s.data with
  | some (v, r) => if skipWs r = [] then some v else none
  | none => none

/-! ## Transport client (`app/today_pickup_client/client.py`) -/

/-- `TODAY_PICKUP_BASE_URL` of `app/config/settings.py` (production default). -/
def TODAY_PICKUP_BASE_URL : String := "https://admin.todaypickup.com/api"

/-- One outbound call issued by `TodayPickupClientBase` internals: method,
endpoint path relative to the client's base URL, the prepared header dict,
and the optional JSON body. -/
structure OutboundCall where
  method : String
  endpoint : String
  headers : List (String × String)
  jsonBody : Option Json

/-- An upstream HTTP response as the transport client sees it: status code
and raw body text. -/
structure UpstreamHttpResponse where
  status : Nat
  body : String

/-- Outcome of the underlying `httpx` call: a response, or a raised
`httpx.RequestError` (network failure) carrying a message. -/
inductive CallOutcome where
  | response (r : UpstreamHttpResponse)
  | netError (msg : String)

/-- The value the caller of `TodayPickupClientBase` internals receives:
parsed content on success, or one of the exception classes the method can
raise (`httpx.HTTPStatusError` carrying the exact response status and body,
a JSON decode failure, or a re-raised `httpx.RequestError`). -/
inductive ClientResult where
  | ok (content : Option Json)
  | httpStatusError (status : Nat) (body : String)
  | jsonDecodeError (body : String)
  | requestError (msg : String)

/-- Header preparation in `TodayPickupClientBase`: start from an empty dict,
inject `Authorization` when the stored token is truthy (present and
non-empty), inject `agencyId` when the stored tenant id is truthy, then
merge any explicitly passed headers on top (`request_headers.update(headers)`,
Python dict update). -/
def prepRequestHeaders (auth_token agency_id : Option String)
    (headers : Option (List (String × String))) : List (String × String) :=
  let h0 : List (String × String) := []
  let h1 := match auth_token with
    | some t => if t = "" then h0 else dictInsert h0 "Authorization" t
    | none => h0
  let h2 := match agency_id with
    | some a => if a = "" then h1 else dictInsert h1 "agencyId" a
    | none => h1
  match headers with
  | some ex => dictUpd h2 ex
  | none => h2

/-- Response handling of the client's request method: `raise_for_status()`
raises `httpx.HTTPStatusError` for every non-2xx status (httpx treats any
response that is not a success as an error), a 204 yields `None`, and any
other 2xx yields `response.json()`, which raises when the body is not valid
JSON. -/
def processResponse (r : UpstreamHttpResponse) : ClientResult :=
  if 200 ≤ r.status ∧ r.status ≤ 299 then
    if r.status = 204 then .ok none
    else match Json.parse r.body with
      | some j => .ok (some j)
      | none => .jsonDecodeError r.body
  else .httpStatusError r.status r.body

/-- The client's generic request operation (the private request method of
`TodayPickupClientBase`): prepares headers from the stored credentials and
any explicit headers, issues exactly one call and processes the response;
a raised `httpx.RequestError` is re-raised unchanged.  The issued call is
recorded in the returned list. -/
def clientRequest (auth_token agency_id : Option String) (method endpoint : String)
    (headers : Option (List (String × String))) (jsonBody : Option Json)
    (upstream : OutboundCall → CallOutcome) : ClientResult × List OutboundCall :=
  let call : OutboundCall :=
    ⟨method, endpoint, prepRequestHeaders auth_token agency_id headers, jsonBody⟩
  ((match upstream call with
    | .response r => processResponse r
    | .netError m => .requestError m), [call])

/-- `MallApiClient.get_delivery_by_invoice`: a mall client is constructed
with only an auth token (no agency id) and issues one GET to
`/mall/delivery/{invoiceNumber}` with no extra headers and no body. -/
def MallApiClient.get_delivery_by_invoice (auth_token invoice_number : String)
    (upstream : OutboundCall → CallOutcome) : ClientResult × List OutboundCall :=
  clientRequest (some auth_token) none "GET" ("/mall/delivery/" ++ invoice_number)
    none none upstream

/-- `AgencyApiClient.check_auth`: an agency client is constructed with an
auth token and an agency id and issues one POST to `/agency/auth`. -/
def AgencyApiClient.check_auth (auth_token agency_id : String)
    (upstream : OutboundCall → CallOutcome) : ClientResult × List OutboundCall :=
  clientRequest (some auth_token) (some agency_id) "POST" "/agency/auth"
    none none upstream

/-! ## Credential dependencies (`app/controllers/dependencies.py`) and the
typed agency endpoints -/

/-- `get_agency_auth_token`: a missing (or empty, by Python truthiness)
`Authorization` header raises a 401 `HTTPException`; otherwise the raw value
is returned. -/
def get_agency_auth_token : Option String → Except (Nat × String) String
  | none => .error (401, "Authorization header is missing")
  | some a => if a = "" then .error (401, "Authorization header is missing") else .ok a

/-- `get_agency_id`: a missing (or empty) `agencyId` header raises a 400
`HTTPException`; otherwise the raw value is returned. -/
def get_agency_id : Option String → Except (Nat × String) String
  | none => .error (400, "agencyId header is missing")
  | some a => if a = "" then .error (400, "agencyId header is missing") else .ok a

/-- What the caller of a typed endpoint receives: the handler's value or an
`HTTPException`. -/
inductive EndpointOutcome where
  | ok (content : Option Json)
  | httpError (status : Nat) (detail : String)

/-- `check_agency_auth` of `today_pickup_agency_controller.py`: the
dependency chain (`get_agency_service`) resolves the token (401 when
missing) and the agency id (400 when missing) before the service and its
client are even constructed, so a failed dependency issues no outbound
call; on success the service call runs and any non-`HTTPException` failure
is mapped to a 500. -/
def check_agency_auth (authorization agencyId : Option String)
    (upstream : OutboundCall → CallOutcome) : EndpointOutcome × List OutboundCall :=
  match get_agency_auth_token authorization with
  | .error e => (.httpError e.1 e.2, [])
  | .ok tok =>
    match get_agency_id agencyId with
    | .error e => (.httpError e.1 e.2, [])
    | .ok aid =>
      let rc := AgencyApiClient.check_auth tok aid upstream
      ((match rc.1 with
        | .ok j => .ok j
        | .httpStatusError s b =>
            .httpError 500 ("An unexpected error occurred: " ++ toString s ++ " " ++ b)
        | .jsonDecodeError b => .httpError 500 ("An unexpected error occurred: " ++ b)
        | .requestError m => .httpError 500 ("An unexpected error occurred: " ++ m)),
       rc.2)

/-! ## Typed endpoint relays (`app/controllers/agency_relay_controller.py`,
`app/controllers/mall_relay_controller.py`) -/

/-- `EXTERNAL_API_BASE_URL` of the typed relay controllers. -/
def EXTERNAL_API_BASE_URL : String := "https://admin.todaypickup.com"

/-- What the caller of a typed relay endpoint receives: the upstream
response forwarded (status and body) or an `HTTPException`. -/
inductive TypedRelayOutcome where
  | forwarded (status : Nat) (body : String)
  | httpError (status : Nat) (detail : String)

/-- `check_auth` of `agency_relay_controller.py`.  Its signature declares
`authorization` and `agencyId` as required `Header(...)` parameters, so a
request missing either header is rejected by FastAPI's request validation
with a 422 response before the handler body runs and before any outbound
call (framework behaviour for a missing required parameter); with both
present, one POST with an empty JSON object body is issued and the upstream
status and body are forwarded, while a raised `httpx.RequestError` maps to
a 500. -/
def relay_check_auth (authorization agencyId : Option String)
    (upstream : OutboundCall → CallOutcome) : TypedRelayOutcome × List OutboundCall :=
  match authorization, agencyId with
  | some auth, some aid =>
    let call : OutboundCall :=
      { method := "POST"
        endpoint := EXTERNAL_API_BASE_URL ++ "/api/agency/auth"
        headers := [("Authorization", auth), ("agencyId", aid),
                    ("Content-Type", "application/json"), ("Accept", "application/json")]
        jsonBody := some (Json.obj []) }
    ((match upstream call with
      | .response r => .forwarded r.status r.body
      | .netError m => .httpError 500 ("Error connecting to external API: " ++ m)), [call])
  | _, _ => (.httpError 422 "Field required", [])

/-- The `MallApiDeliveryDTO` declared in `mall_relay_controller.py`: a
Pydantic `BaseModel` subclass whose body is `pass` (no fields).  With
Pydantic's default configuration such a model accepts any JSON object,
ignoring every field; the parsed instance carries no data. -/
structure RelayMallApiDeliveryDTO

/-- Pydantic validation of the field-less model: any JSON object is
accepted (extra fields are ignored); anything else is a validation error. -/
def RelayMallApiDeliveryDTO.model_validate : Json → Except String RelayMallApiDeliveryDTO
  | Json.obj _ => .ok ⟨⟩
  | _ => .error "Input should be a valid dictionary"

/-- `model_dump(by_alias=True)` of the field-less model: the empty JSON
object, whatever the incoming body contained. -/
def RelayMallApiDeliveryDTO.model_dump (_ : RelayMallApiDeliveryDTO) : Json :=
  Json.obj []

/-- The body that `delivery_list_register` of `mall_relay_controller.py`
forwards upstream: the incoming body parsed into `MallApiDeliveryDTO` and
dumped back to JSON. -/
def delivery_list_register_forwardedBody (body : Json) : Except String Json :=
  (RelayMallApiDeliveryDTO.model_validate body).map RelayMallApiDeliveryDTO.model_dump

/-- The `AuthAgencyDTO` declared in `agency_relay_controller.py`: likewise a
field-less Pydantic model. -/
structure RelayAuthAgencyDTO

/-- Pydantic validation of the field-less agency model. -/
def RelayAuthAgencyDTO.model_validate : Json → Except String RelayAuthAgencyDTO
  | Json.obj _ => .ok ⟨⟩
  | _ => .error "Input should be a valid dictionary"

/-- `model_dump(by_alias=True)` of the field-less agency model. -/
def RelayAuthAgencyDTO.model_dump (_ : RelayAuthAgencyDTO) : Json :=
  Json.obj []

/-- The body that `auth_token` of `agency_relay_controller.py` forwards
upstream. -/
def auth_token_forwardedBody (body : Json) : Except String Json :=
  (RelayAuthAgencyDTO.model_validate body).map RelayAuthAgencyDTO.model_dump

/-! ## CRUD user service (`app/services/user_service.py`,
`app/repositories/user_repository.py`) -/

/-- A persisted user row: identifier, email, username, hashed password. -/
structure User where
  id : Nat
  email : String
  username : String
  hashed_password : String

/-- The relational store for users, with the next autoincrement id. -/
structure Db where
  users : List User
  nextId : Nat

/-- Outcome of a creation attempt: the created row and the new store, or a
raised `ValueError` (a business error, a different exception class from any
transport error) together with the rolled-back store. -/
inductive CreateOutcome where
  | created (u : User) (db : Db)
  | valueError (msg : String) (db : Db)

/-- Modelled from the spec: the `User` model (in `app/models/user.py`, which
is not under `src/`) declares unique constraints on email and username, so
committing a row whose email or username is already present raises
`IntegrityError`. -/
def violatesUnique (db : Db) (email username : String) : Bool :=
  db.users.any (fun u => u.email == email || u.username == username)

/-- `UserRepository.create`: add the row and commit; on `IntegrityError`
(uniqueness violation) roll the session back, leaving the store unchanged,
and raise a `ValueError` with the repository's message. -/
def UserRepository.create (db : Db) (email username hashed_password : String) :
    CreateOutcome :=
  let user : User := ⟨db.nextId, email, username, hashed_password⟩
  if violatesUnique db email username then
    .valueError "이미 존재하는 이메일 또는 사용자 이름입니다." db
  else
    .created user ⟨db.users ++ [user], db.nextId + 1⟩

/-- `UserService.create_user`: hash the supplied password with the service's
fixed digest (`hashlib.sha256(...).hexdigest()`, abstracted here as
`hashFn`) and create the row with the hash — the clear-text password is
never handed to the repository. -/
def UserService.create_user (hashFn : String → String) (db : Db)
    (email username password : String) : CreateOutcome :=
  UserRepository.create db email username (hashFn password)

theorem mem_dictUpd_self {hs : List (String × String)} {k v : String}
    (d : List (String × String)) (h : (k, v) ∈ hs) (hnd : (hs.map Prod.fst).Nodup) :
    (k, v) ∈ dictUpd d hs := by
  induction hs generalizing d with
  | nil => cases h
  | cons p t ih =>
    rw [List.map_cons] at hnd
    unfold dictUpd
    rw [List.foldl_cons]
    rcases List.mem_cons.mp h with h' | h'
    · have hself : (k, v) ∈ dictInsert d p.1 p.2 := by
        rw [h']
        exact self_mem_dictInsert d p.1 p.2
      have hp1 : p.1 = k := (congrArg Prod.fst h').symm
      show (k, v) ∈ dictUpd (dictInsert d p.1 p.2) t
      refine mem_dictUpd_of_ne _ hself ?_
      intro q hq hqk
      exact (List.nodup_cons.mp hnd).1 (hp1 ▸ (hqk ▸ List.mem_map.mpr ⟨q, hq, rfl⟩))
    · exact ih _ h' (List.nodup_cons.mp hnd).2

/-- C1 evaluated at the failing input: the field-less relay DTOs accept a
populated JSON object body but dump back the empty object, so the body
forwarded upstream is not JSON-equivalent to the incoming body — every field
is dropped, refuting the pass-through contract (the code's own comment says
the models should "allow any fields for now"). -/
theorem relay_dto_not_passthrough :
    delivery_list_register_forwardedBody (Json.obj [("goodsList", Json.arr [])])
      = .ok (Json.obj []) ∧
    Json.obj ([] : List (String × Json)) ≠ Json.obj [("goodsList", Json.arr [])] ∧
    auth_token_forwardedBody (Json.obj [("accessKey", Json.str "k")])
      = .ok (Json.obj []) ∧
    Json.obj ([] : List (String × Json)) ≠ Json.obj [("accessKey", Json.str "k")] :=
  ⟨rfl, fun h => List.noConfusion (Json.obj.inj h),
   rfl, fun h => List.noConfusion (Json.obj.inj h)⟩

/-- C5 (amended): on the dependency-based typed agency endpoints a missing
(or empty) `Authorization` header yields a 401 and zero outbound calls, and
a missing `agencyId` header (with a bearer token present) yields a 400 and
zero outbound calls; on the direct agency relay endpoints, which declare
both headers as required parameters, a missing header yields the
framework's 422 validation response, likewise with zero outbound calls —
in every case the rejection precedes any outbound call. -/
theorem agency_missing_header_rejection :
    (∀ (aid : Option String) (u : OutboundCall → CallOutcome),
        (check_agency_auth none aid u).1
          = .httpError 401 "Authorization header is missing" ∧
        (check_agency_auth none aid u).2 = []) ∧
    (∀ (t : String) (u : OutboundCall → CallOutcome), t ≠ "" →
        (check_agency_auth (some t) none u).1
          = .httpError 400 "agencyId header is missing" ∧
        (check_agency_auth (some t) none u).2 = []) ∧
    (∀ (aid : Option String) (u : OutboundCall → CallOutcome),
        (relay_check_auth none aid u).1 = .httpError 422 "Field required" ∧
        (relay_check_auth none aid u).2 = []) ∧
    (∀ (t : String) (u : OutboundCall → CallOutcome),
        (relay_check_auth (some t) none u).1 = .httpError 422 "Field required" ∧
        (relay_check_auth (some t) none u).2 = []) := by
  refine ⟨fun aid u => ⟨rfl, rfl⟩, ?_, ?_, fun t u => ⟨rfl, rfl⟩⟩
  · intro t u ht
    have hg : get_agency_auth_token (some t) = .ok t := by
      show (if t = "" then Except.error (401, "Authorization header is missing")
          else Except.ok t) = Except.ok t
      rw [if_neg ht]
    constructor
    · show (check_agency_auth (some t) none u).1 = _
      unfold check_agency_auth
      rw [hg]
      rfl
    · show (check_agency_auth (some t) none u).2 = _
      unfold check_agency_auth
      rw [hg]
      rfl
  · intro aid u
    cases aid with
    | none => exact ⟨rfl, rfl⟩
    | some a => exact ⟨rfl, rfl⟩

/-- C5 counterexample: a direct agency relay endpoint invoked without the
`Authorization` header responds 422, not the claimed 401 (and makes no
outbound call). -/
theorem agency_missing_auth_status_cx :
    (relay_check_auth none (some "AG") (fun _ => .netError "down")).1
      = .httpError 422 "Field required" ∧
    (relay_check_auth none (some "AG") (fun _ => .netError "down")).2 = [] ∧
    (422 : Nat) ≠ 401 :=
  ⟨rfl, rfl, by decide⟩

/-- Witness for the amended missing-header theorem at concrete headers. -/
theorem agency_missing_header_rejection_witness :
    (check_agency_auth none (some "AG") (fun _ => .netError "x")).1
      = .httpError 401 "Authorization header is missing" ∧
    (check_agency_auth (some "tok") none (fun _ => .netError "x")).1
      = .httpError 400 "agencyId header is missing" ∧
    (check_agency_auth (some "tok") none (fun _ => .netError "x")).2 = [] :=
  ⟨(agency_missing_header_rejection.1 (some "AG") (fun _ => .netError "x")).1,
   (agency_missing_header_rejection.2.1 "tok" (fun _ => .netError "x") (by decide)).1,
   (agency_missing_header_rejection.2.1 "tok" (fun _ => .netError "x") (by decide)).2⟩

/-- C6 evaluated at the failing input: `raise_for_status()` raises for every
non-2xx status, so a 301 response raises an error carrying status 301
instead of yielding the parsed JSON body that the claim (and the method's
own docstring, which promises raising only for 4xx/5xx) prescribes for
statuses below 400; the 204, ≥400 and ordinary-2xx behaviours agree with the
claim. -/
theorem client_status_handling_eval :
    processResponse ⟨301, "\x7b\x7d"⟩ = .httpStatusError 301 "\x7b\x7d" ∧
    processResponse ⟨204, ""⟩ = .ok none ∧
    processResponse ⟨404, "nf"⟩ = .httpStatusError 404 "nf" ∧
    processResponse ⟨500, "err"⟩ = .httpStatusError 500 "err" ∧
    processResponse ⟨200, "\x7b\x7d"⟩ = .ok (some (Json.obj [])) :=
  ⟨rfl, rfl, rfl, rfl, rfl⟩

/-- C10: a success-status (2xx, non-204) response whose body is not valid
JSON makes the transport client's request operation raise (the JSON decode
failure propagates) rather than return the raw body. -/
theorem client_non_json_success_raises (status : Nat) (body : String)
    (h200 : 200 ≤ status) (h299 : status ≤ 299) (h204 : status ≠ 204)
    (hbad : Json.parse body = none) :
    processResponse ⟨status, body⟩ = .jsonDecodeError body ∧
    ∀ c, processResponse ⟨status, body⟩ ≠ .ok c := by
  have h1 : processResponse ⟨status, body⟩ = .jsonDecodeError body := by
    unfold processResponse
    rw [if_pos ⟨h200, h299⟩, if_neg h204, hbad]
  refine ⟨h1, fun c hc => ?_⟩
  rw [h1] at hc
  exact ClientResult.noConfusion hc

/-- Witness for the non-JSON-body theorem at status 200 with body "hello". -/
theorem client_non_json_success_raises_witness :
    Json.parse "hello" = none ∧
    processResponse ⟨200, "hello"⟩ = .jsonDecodeError "hello" :=
  ⟨rfl, (client_non_json_success_raises 200 "hello" (by decide) (by decide)
    (by decide) rfl).1⟩


theorem prepRequestHeaders_ex_eq (o1 o2 : Option String) (ex : List (String × String)) :
    prepRequestHeaders o1 o2 (some ex) = dictUpd (prepRequestHeaders o1 o2 none) ex := by
  simp only [prepRequestHeaders]

theorem auth_mem_prepRequestHeaders (t : String) (aid : Option String) (ht : t ≠ "") :
    ("Authorization", t) ∈ prepRequestHeaders (some t) aid none := by
  cases aid with
  | none =>
    simp only [prepRequestHeaders]
    rw [if_neg ht]
    exact self_mem_dictInsert _ _ _
  | some a =>
    simp only [prepRequestHeaders]
    rw [if_neg ht]
    by_cases ha : a = ""
    · rw [if_pos ha]
      exact self_mem_dictInsert _ _ _
    · rw [if_neg ha]
      exact mem_dictInsert_of_ne _ _ (self_mem_dictInsert _ _ _) (by decide)

theorem agency_mem_prepRequestHeaders (o : Option String) (a : String) (ha : a ≠ "") :
    ("agencyId", a) ∈ prepRequestHeaders o (some a) none := by
  cases o with
  | none =>
    simp only [prepRequestHeaders]
    rw [if_neg ha]
    exact self_mem_dictInsert _ _ _
  | some t =>
    simp only [prepRequestHeaders]
    rw [if_neg ha]
    by_cases ht : t = ""
    · rw [if_pos ht]
      exact self_mem_dictInsert _ _ _
    · rw [if_neg ht]
      exact self_mem_dictInsert _ _ _

/-- C7: the transport client injects an `Authorization` header with the
supplied (non-empty, by Python truthiness) token and an `agencyId` header
with the supplied tenant id; headers explicitly passed to the request
operation are merged on top of the injected ones and take precedence (every
explicitly passed pair, under distinct explicit names, ends up in the final
header dict verbatim, while an injected pair survives when no explicit
header reuses its name); and a mall client constructed with only the token
`"fake_mall_token"` issues, for "get delivery by invoice" on `"INV001"`,
exactly one GET to `/mall/delivery/INV001` whose header dict is exactly
`[("Authorization", "fake_mall_token")]` — in particular with no `agencyId`
header. -/
theorem client_header_injection :
    (∀ (t : String) (aid : Option String), t ≠ "" →
        ("Authorization", t) ∈ prepRequestHeaders (some t) aid none) ∧
    (∀ (o : Option String) (a : String), a ≠ "" →
        ("agencyId", a) ∈ prepRequestHeaders o (some a) none) ∧
    (∀ (o1 o2 : Option String) (ex : List (String × String)) (k v : String),
        (k, v) ∈ ex → (ex.map Prod.fst).Nodup →
        (k, v) ∈ prepRequestHeaders o1 o2 (some ex)) ∧
    (∀ (t : String) (aid : Option String) (ex : List (String × String)), t ≠ "" →
        (∀ p ∈ ex, p.1 ≠ "Authorization") →
        ("Authorization", t) ∈ prepRequestHeaders (some t) aid (some ex)) ∧
    (∀ u, (MallApiClient.get_delivery_by_invoice "fake_mall_token" "INV001" u).2
        = [{ method := "GET", endpoint := "/mall/delivery/INV001",
             headers := [("Authorization", "fake_mall_token")], jsonBody := none }]) ∧
    "agencyId" ∉ ([("Authorization", "fake_mall_token")].map Prod.fst) := by
  refine ⟨auth_mem_prepRequestHeaders, agency_mem_prepRequestHeaders, ?_, ?_, ?_, by decide⟩
  · intro o1 o2 ex k v hmem hnd
    rw [prepRequestHeaders_ex_eq]
    exact mem_dictUpd_self _ hmem hnd
  · intro t aid ex ht hne
    rw [prepRequestHeaders_ex_eq]
    exact mem_dictUpd_of_ne _ (auth_mem_prepRequestHeaders t aid ht) hne
  · intro u
    rfl

/-- Witness for the header-injection theorem at concrete credentials and
explicit headers. -/
theorem client_header_injection_witness :
    ("Authorization", "tok") ∈ prepRequestHeaders (some "tok") none none ∧
    ("agencyId", "ag") ∈ prepRequestHeaders (some "tok") (some "ag") none ∧
    ("X-Extra", "y") ∈ prepRequestHeaders (some "tok") none (some [("X-Extra", "y")]) ∧
    ("Authorization", "tok") ∈ prepRequestHeaders (some "tok") none (some [("X-Extra", "y")]) :=
  ⟨client_header_injection.1 "tok" none (by decide),
   client_header_injection.2.1 (some "tok") "ag" (by decide),
   client_header_injection.2.2.1 (some "tok") none [("X-Extra", "y")] "X-Extra" "y"
     (by decide) (by decide),
   client_header_injection.2.2.2.1 "tok" none [("X-Extra", "y")] (by decide)
     (by decide)⟩

/-- C9: user creation stores exactly the row (next id, email, username,
digest of the supplied password) — the clear-text password reaches the
store only through the fixed digest function, and in every successful
creation the stored password field is that digest; when the email or
username already exists, the creation surfaces as a `ValueError` (the
repository's business error, a distinct exception class from any transport
error) and the pending change is rolled back, leaving the store unchanged. -/
theorem user_create_hashes_and_rolls_back (hashFn : String → String) (db : Db)
    (email username password : String) :
    (violatesUnique db email username = false →
        UserService.create_user hashFn db email username password
          = .created ⟨db.nextId, email, username, hashFn password⟩
              ⟨db.users ++ [⟨db.nextId, email, username, hashFn password⟩],
               db.nextId + 1⟩) ∧
    (∀ u db', UserService.create_user hashFn db email username password
        = .created u db' → u.hashed_password = hashFn password) ∧
    (violatesUnique db email username = true →
        UserService.create_user hashFn db email username password
          = .valueError "이미 존재하는 이메일 또는 사용자 이름입니다." db) := by
  unfold UserService.create_user UserRepository.create
  refine ⟨?_, ?_, ?_⟩
  · intro hv
    rw [if_neg (by rw [hv]; exact Bool.false_ne_true)]
  · intro u db' h
    by_cases hv : violatesUnique db email username = true
    · rw [if_pos hv] at h
      exact CreateOutcome.noConfusion h
    · rw [if_neg hv] at h
      have hu := (CreateOutcome.created.inj h).1
      rw [← hu]
  · intro hv
    rw [if_pos hv]

/-- Witness for the user-creation theorem: a fresh store accepts the row and
stores the digest; a store already holding the email rejects the row with a
`ValueError` and is left unchanged. -/
theorem user_create_hashes_and_rolls_back_witness :
    violatesUnique ⟨[], 1⟩ "e@x" "u1" = false ∧
    UserService.create_user (fun s => s ++ "#h") ⟨[], 1⟩ "e@x" "u1" "pw"
      = .created ⟨1, "e@x", "u1", "pw#h"⟩ ⟨[⟨1, "e@x", "u1", "pw#h"⟩], 2⟩ ∧
    violatesUnique ⟨[⟨1, "e@x", "u1", "h0"⟩], 2⟩ "e@x" "u2" = true ∧
    UserService.create_user (fun s => s ++ "#h") ⟨[⟨1, "e@x", "u1", "h0"⟩], 2⟩
        "e@x" "u2" "pw"
      = .valueError "이미 존재하는 이메일 또는 사용자 이름입니다."
          ⟨[⟨1, "e@x", "u1", "h0"⟩], 2⟩ :=
  ⟨rfl,
   (user_create_hashes_and_rolls_back (fun s => s ++ "#h") ⟨[], 1⟩ "e@x" "u1" "pw").1 rfl,
   rfl,
   (user_create_hashes_and_rolls_back (fun s => s ++ "#h") ⟨[⟨1, "e@x", "u1", "h0"⟩], 2⟩
      "e@x" "u2" "pw").2.2 rfl⟩

/-- Witness for the forward-header policy at a concrete request carrying one
ordinary header and a `Host` header. -/
theorem relay_forward_headers_policy_witness :
    "x-req" ∈
      (buildOutbound ⟨"GET", "p", "", [("x-req", "v"), ("Host", "h")], []⟩).headers.map
        Prod.fst ∧
    ("Host", "h") ∉
      (buildOutbound ⟨"GET", "p", "", [("x-req", "v"), ("Host", "h")], []⟩).headers ∧
    (buildOutbound ⟨"GET", "p", "", [("x-req", "v"), ("Host", "h")], []⟩).headers
      = [("x-req", "v"), ("Host", "h")].filter
          (fun p => ¬ HOP_BY_HOP_HEADERS.contains (strLower p.1)) :=
  ⟨(relay_forward_headers_policy ⟨"GET", "p", "", [("x-req", "v"), ("Host", "h")], []⟩).2.2.1
      "x-req" "v" (by decide) (by decide),
   (relay_forward_headers_policy ⟨"GET", "p", "", [("x-req", "v"), ("Host", "h")], []⟩).2.1
      "Host" "h" (by decide) (by decide) "h",
   (relay_forward_headers_policy ⟨"GET", "p", "", [("x-req", "v"), ("Host", "h")], []⟩).2.2.2
      (by decide)⟩
